import Mathlib

/-
  Verification development for life.py: a toroidal Game of Life engine
  (class World) and a periodic scheduler (class Stepper).

  The Python source is shallowly embedded: grids are lists of lists,
  Python integers are Int (coordinates) or Nat (dimensions, counts),
  Python `%` on a positive divisor is Int.emod, list indexing with its
  negative-index wrap and IndexError is modelled by pyGet / pySet
  returning Option, and operations that can raise return Option.
-/

set_option maxHeartbeats 1000000

namespace Life

/-- Cell state, from `class Cell(Enum)` in life.py (ALIVE, DEAD). -/
inductive Cell where
  | ALIVE : Cell
  | DEAD : Cell
deriving DecidableEq, Repr

/-- Values that can occur as entries of `cells_changed`: the reset path
(`_fresh_cells`) stores the enum value `Cell.DEAD` (because `_fresh_cells`
ignores its `state` parameter), while `step` and `flip_cell` store Python
booleans.  Python equality between an enum member and a bool is `False`,
which the derived `DecidableEq` mirrors. -/
inductive PyVal where
  | cell (c : Cell) : PyVal
  | bool (b : Bool) : PyVal
deriving DecidableEq, Repr

/-- Translation of `World._fresh_cells` (life.py 131-133).  The body is
`[[Cell.DEAD for x in range(0, self.width)] for y in range(0, self.height)]`:
the `state` parameter is ignored and every entry is `Cell.DEAD`. -/
def fresh_cells (width height : Nat) : List (List Cell) :=
  List.replicate height (List.replicate width Cell.DEAD)

/-- The same reset grid as it appears when assigned to `cells_changed`
(lines 91, 106, 111): because `_fresh_cells` ignores `state=False`, the
entries are the Python value `Cell.DEAD`, not `False`. -/
def fresh_changed (width height : Nat) : List (List PyVal) :=
  List.replicate height (List.replicate width (PyVal.cell Cell.DEAD))

/-- The World of life.py 86-133: dimensions, the cell grid (indexed
[y][x]) and the change grid. -/
structure World where
  width : Nat
  height : Nat
  cells : List (List Cell)
  cells_changed : List (List PyVal)
deriving DecidableEq, Repr

/-- Reading `cells[y][x]` at indices that are known to be in range;
out-of-range reads return the (never used) default `Cell.DEAD`. -/
def cellAt (g : List (List Cell)) (x y : Nat) : Cell :=
  (g.getD y []).getD x Cell.DEAD

/-- Reading `cells_changed[y][x]` at indices known to be in range. -/
def changedAt (g : List (List PyVal)) (x y : Nat) : PyVal :=
  (g.getD y []).getD x (PyVal.cell Cell.DEAD)

/-- Python assignment `g[r][c] = v` for non-negative literal indices:
IndexError (out of range) is modelled as `none`. -/
def setC (g : List (List Cell)) (r c : Nat) (v : Cell) : Option (List (List Cell)) :=
  match g[r]? with
  | none => none
  | some row => if c < row.length then some (g.set r (row.set c v)) else none

/-- Translation of `World.__init__` (life.py 87-98): build the fresh grids,
then perform the five glider assignments
`cells[0][2] cells[1][2] cells[2][2] cells[2][1] cells[1][0] = ALIVE`.
Any of those can raise IndexError (grid too small), modelled as `none`.
A negative Python width/height behaves exactly like 0 here because
`range(0, n)` is empty, so Nat dimensions lose no behaviour. -/
def World.init (width height : Nat) : Option World :=
  match setC (fresh_cells width height) 0 2 Cell.ALIVE with
  | none => none
  | some c1 =>
  match setC c1 1 2 Cell.ALIVE with
  | none => none
  | some c2 =>
  match setC c2 2 2 Cell.ALIVE with
  | none => none
  | some c3 =>
  match setC c3 2 1 Cell.ALIVE with
  | none => none
  | some c4 =>
  match setC c4 1 0 Cell.ALIVE with
  | none => none
  | some c5 =>
  some { width := width, height := height, cells := c5,
         cells_changed := fresh_changed width height }

/-- The 8 neighbor index pairs of life.py 114-121, in source order, with
Python `%` (always non-negative for a positive divisor) as `Int.emod`. -/
def neighbors (width height : Nat) (x y : Nat) : List (Int × Int) :=
  [(((x : Int) - 1) % (width : Int), ((y : Int) - 1) % (height : Int)),
   (((x : Int) + 0) % (width : Int), ((y : Int) - 1) % (height : Int)),
   (((x : Int) + 1) % (width : Int), ((y : Int) - 1) % (height : Int)),
   (((x : Int) - 1) % (width : Int), ((y : Int) + 0) % (height : Int)),
   (((x : Int) + 1) % (width : Int), ((y : Int) + 0) % (height : Int)),
   (((x : Int) - 1) % (width : Int), ((y : Int) + 1) % (height : Int)),
   (((x : Int) + 0) % (width : Int), ((y : Int) + 1) % (height : Int)),
   (((x : Int) + 1) % (width : Int), ((y : Int) + 1) % (height : Int))]

/-- Line 122: `[self.cells[y][x] for x, y in neighbors].count(Cell.ALIVE)`.
All the emod results are non-negative, so `Int.toNat` is exact. -/
def livingNeighbors (w : World) (x y : Nat) : Nat :=
  ((neighbors w.width w.height x y).map
    (fun p => cellAt w.cells p.1.toNat p.2.toNat)).count Cell.ALIVE

/-- Lines 123-126: the per-cell transition.  When the neighbor count is
neither 3 nor 2 no assignment happens and the fresh value `Cell.DEAD`
remains. -/
def stepCell (w : World) (x y : Nat) : Cell :=
  if livingNeighbors w x y = 3 then Cell.ALIVE
  else if livingNeighbors w x y = 2 then cellAt w.cells x y
  else Cell.DEAD

/-- The `next_cells` grid produced by the double loop of `step` (lines
110-126): a height x width grid whose (y, x) entry is `stepCell`.  The
imperative loop assigns each position exactly once, reading only the
pre-step `self.cells`, so it equals this pointwise construction. -/
def stepCells (w : World) : List (List Cell) :=
  (List.range w.height).map fun y => (List.range w.width).map fun x => stepCell w x y

/-- The `next_cells_changed` grid: line 127 assigns
`self.cells[y][x] != next_cells[y][x]` (a genuine Python bool) at every
position, overwriting the whole fresh grid. -/
def stepChanged (w : World) : List (List PyVal) :=
  (List.range w.height).map fun y => (List.range w.width).map fun x =>
    PyVal.bool (decide (cellAt w.cells x y ≠ stepCell w x y))

/-- Translation of `World.step` (life.py 109-129): replace both grids. -/
def World.step (w : World) : World :=
  { w with cells := stepCells w, cells_changed := stepChanged w }

/-- Iterated stepping (used for the glider translation property). -/
def stepN : Nat → World → World
  | 0, w => w
  | n + 1, w => stepN n w.step

/-- Well-formedness: both grids have exactly `height` rows of exactly
`width` entries.  `World.init` establishes it and all operations keep it. -/
def World.WF (w : World) : Prop :=
  w.cells.length = w.height ∧ (∀ r ∈ w.cells, r.length = w.width) ∧
  w.cells_changed.length = w.height ∧ (∀ r ∈ w.cells_changed, r.length = w.width)

/-- Python index resolution for `l[i]`: negative indices count from the
end. -/
def pyIdx (len : Nat) (i : Int) : Int := if i < 0 then i + len else i

/-- Python `l[i]` read: `none` models IndexError. -/
def pyGet {α : Type} (l : List α) (i : Int) : Option α :=
  if h : 0 ≤ pyIdx l.length i ∧ (pyIdx l.length i).toNat < l.length then
    some (l.get ⟨(pyIdx l.length i).toNat, h.2⟩)
  else none

/-- Python `l[i] = v` write: `none` models IndexError, otherwise the
updated list. -/
def pySet {α : Type} (l : List α) (i : Int) (v : α) : Option (List α) :=
  if 0 ≤ pyIdx l.length i ∧ (pyIdx l.length i).toNat < l.length then
    some (l.set (pyIdx l.length i).toNat v)
  else none

/-- The branch of lines 102-105: an ALIVE cell becomes DEAD and any
other cell becomes ALIVE. -/
def toggle (c : Cell) : Cell :=
  if c = Cell.ALIVE then Cell.DEAD else Cell.ALIVE

/-- Translation of `World.flip_cell` (life.py 101-107).  Reads
`cells[y][x]` (line 102) first: if that raises, nothing is modified.
Otherwise the cell is toggled in place, `cells_changed` is reset with
`_fresh_cells(state=False)` (all entries `Cell.DEAD`!) and position
`[y][x]` is set to the Python bool True. -/
def World.flip_cell (w : World) (x y : Int) : Option World :=
  match pyGet w.cells y with
  | none => none
  | some row =>
  match pyGet row x with
  | none => none
  | some c =>
  match pySet row x (toggle c) with
  | none => none
  | some row' =>
  match pySet w.cells y row' with
  | none => none
  | some cells' =>
  let ch := fresh_changed w.width w.height
  match pyGet ch y with
  | none => none
  | some chrow =>
  match pySet chrow x (PyVal.bool true) with
  | none => none
  | some chrow' =>
  match pySet ch y chrow' with
  | none => none
  | some ch' => some { w with cells := cells', cells_changed := ch' }

/-- Stepper state (life.py 24-83).  The callback itself is abstracted by
`calls`, the number of invocations performed so far; `pending` models
whether a `threading.Timer` is scheduled (`self._timer` live and not
cancelled); `interval` is the stored interval in seconds, idealized as a
rational. -/
structure Stepper where
  interval : ℚ
  running : Bool
  pending : Bool
  calls : Nat
deriving DecidableEq, Repr

/-- Translation of `Stepper.__init__` (life.py 30-41): stores the interval
unchecked, begins paused with no timer. -/
def Stepper.init (interval : ℚ) : Stepper :=
  { interval := interval, running := false, pending := false, calls := 0 }

/-- Translation of `Stepper._run` followed by `_run_again` (lines 73-83):
invoke the callback once, then schedule a timer only if still running. -/
def Stepper.run1 (s : Stepper) : Stepper :=
  let s' := { s with calls := s.calls + 1 }
  if s'.running then { s' with pending := true } else s'

/-- Translation of `Stepper.start` (lines 43-48): if not running, set
running and call `_run()` synchronously, which invokes the callback at
once. -/
def Stepper.start (s : Stepper) : Stepper :=
  if s.running then s else Stepper.run1 { s with running := true }

/-- Translation of `Stepper.stop` / `_stop` (lines 50-53, 68-71): clear
running and cancel any pending timer. -/
def Stepper.stop (s : Stepper) : Stepper :=
  { s with running := false, pending := false }

/-- Timer expiry: if a timer is pending, it fires `_run`, invoking the
callback and rescheduling.  A cancelled or absent timer does nothing. -/
def Stepper.fire (s : Stepper) : Stepper :=
  if s.pending then Stepper.run1 { s with pending := false } else s

/-- Translation of `Stepper.set_interval` (lines 55-66): when running with
a stored interval above 0.5 seconds it stops (cancelling the timer),
stores the new interval, sets running again and calls `_run()` at once;
otherwise it only stores the new interval.  No sign check anywhere. -/
def Stepper.set_interval (s : Stepper) (interval : ℚ) : Stepper :=
  if s.running = true ∧ (0.5 : ℚ) < s.interval then
    Stepper.run1 { s with running := true, pending := false, interval := interval }
  else
    { s with interval := interval }

/-- Fallback world, used only as the default of `Option.getD` below. -/
def emptyWorld : World := { width := 0, height := 0, cells := [], cells_changed := [] }

/-- The concrete world produced by `World(3, 3)`. -/
def w33 : World := (World.init 3 3).getD emptyWorld

/-- The concrete world produced by `World(5, 5)`. -/
def w55 : World := (World.init 5 5).getD emptyWorld

theorem getD_map_range {α : Type} (n : Nat) (f : Nat → α) (d : α) (i : Nat) (h : i < n) :
    ((List.range n).map f).getD i d = f i := by
  simp [List.getD_eq_getElem?_getD, List.getElem?_map, List.getElem?_range, h]

theorem cellAt_stepCells (w : World) (x y : Nat) (hx : x < w.width) (hy : y < w.height) :
    cellAt (stepCells w) x y = stepCell w x y := by
  unfold cellAt stepCells
  rw [getD_map_range _ _ _ _ hy, getD_map_range _ _ _ _ hx]

theorem changedAt_stepChanged (w : World) (x y : Nat) (hx : x < w.width) (hy : y < w.height) :
    changedAt (stepChanged w) x y =
      PyVal.bool (decide (cellAt w.cells x y ≠ stepCell w x y)) := by
  unfold changedAt stepChanged
  rw [getD_map_range _ _ _ _ hy, getD_map_range _ _ _ _ hx]

/-- C1: after one `step()`, a cell with exactly 3 living neighbors in the
pre-step grid is Alive regardless of its prior state; with exactly 2 its
next state equals its prior state; with any other count (0, 1, 4-8) it is
Dead. -/
theorem claim_step_rule (w : World) (x y : Nat) (hx : x < w.width) (hy : y < w.height) :
    (livingNeighbors w x y = 3 → cellAt (World.step w).cells x y = Cell.ALIVE) ∧
    (livingNeighbors w x y = 2 → cellAt (World.step w).cells x y = cellAt w.cells x y) ∧
    (livingNeighbors w x y ≠ 3 → livingNeighbors w x y ≠ 2 →
      cellAt (World.step w).cells x y = Cell.DEAD) := by
  have h : (World.step w).cells = stepCells w := rfl
  rw [h, cellAt_stepCells w x y hx hy]
  refine ⟨fun h3 => ?_, fun h2 => ?_, fun h3 h2 => ?_⟩ <;>
    simp [stepCell, *]

theorem claim_step_rule_witness : cellAt (World.step w33).cells 1 1 = Cell.DEAD := by
  exact (claim_step_rule w33 1 1 (by decide) (by decide)).2.2 (by decide) (by decide)

theorem emod_bounds (a : Int) (m : Nat) (hm : 1 ≤ m) :
    0 ≤ a % (m : Int) ∧ a % (m : Int) < (m : Int) := by
  have hm' : (0 : Int) < (m : Int) := by exact_mod_cast hm
  exact ⟨Int.emod_nonneg a (by omega), Int.emod_lt_of_pos a hm'⟩

/-- C2: the neighbor positions consulted by `step` are exactly the 8
toroidal pairs ((x plus or minus 1) mod width, (y plus or minus 1) mod
height); each is in range even on row/column 0 and the last row/column;
and the whole next grid and next change set are computed from the
pre-step grid alone (two worlds with the same dimensions and the same
pre-step cells produce identical results, whatever their change sets). -/
theorem claim_step_toroidal (w : World) (x y : Nat)
    (hw : 1 ≤ w.width) (hh : 1 ≤ w.height) (hx : x < w.width) (hy : y < w.height) :
    ((neighbors w.width w.height x y).length = 8 ∧
     (∀ p ∈ neighbors w.width w.height x y,
        0 ≤ p.1 ∧ p.1 < (w.width : Int) ∧ 0 ≤ p.2 ∧ p.2 < (w.height : Int)) ∧
     livingNeighbors w x y =
       ((neighbors w.width w.height x y).map
         (fun p => cellAt w.cells p.1.toNat p.2.toNat)).count Cell.ALIVE) ∧
    (∀ w' : World, w'.width = w.width → w'.height = w.height → w'.cells = w.cells →
      (World.step w').cells = (World.step w).cells ∧
      (World.step w').cells_changed = (World.step w).cells_changed) := by
  refine ⟨⟨rfl, ?_, rfl⟩, ?_⟩
  · intro p hp
    have h1 := emod_bounds ((x : Int) - 1) w.width hw
    have h2 := emod_bounds ((x : Int) + 0) w.width hw
    have h3 := emod_bounds ((x : Int) + 1) w.width hw
    have h4 := emod_bounds ((y : Int) - 1) w.height hh
    have h5 := emod_bounds ((y : Int) + 0) w.height hh
    have h6 := emod_bounds ((y : Int) + 1) w.height hh
    simp only [neighbors, List.mem_cons, List.mem_singleton, List.not_mem_nil, or_false] at hp
    rcases hp with h | h | h | h | h | h | h | h <;> subst h <;>
      exact ⟨by tauto, by tauto, by tauto, by tauto⟩
  · intro w' hW hH hC
    constructor <;>
      simp [World.step, stepCells, stepChanged, stepCell, livingNeighbors, cellAt,
        neighbors, hW, hH, hC]

theorem claim_step_toroidal_witness :
    (neighbors w33.width w33.height 0 0).length = 8 ∧
    ∀ p ∈ neighbors w33.width w33.height 0 0,
      0 ≤ p.1 ∧ p.1 < (w33.width : Int) ∧ 0 ≤ p.2 ∧ p.2 < (w33.height : Int) := by
  have h := claim_step_toroidal w33 0 0 (by decide) (by decide) (by decide) (by decide)
  exact ⟨h.1.1, h.1.2.1⟩

/-- C3: immediately after any `step()`, the change entry at (x, y) is the
Python bool True exactly when the new cell value differs from the value
that cell had in the immediately preceding generation. -/
theorem claim_step_changed (w : World) (x y : Nat) (hx : x < w.width) (hy : y < w.height) :
    (changedAt (World.step w).cells_changed x y = PyVal.bool true ↔
      cellAt (World.step w).cells x y ≠ cellAt w.cells x y) := by
  have h : (World.step w).cells_changed = stepChanged w := rfl
  have h2 : (World.step w).cells = stepCells w := rfl
  rw [h, h2, changedAt_stepChanged w x y hx hy, cellAt_stepCells w x y hx hy]
  constructor
  · intro he
    by_cases hd : cellAt w.cells x y = stepCell w x y
    · simp [hd] at he
    · exact fun hc => hd hc.symm
  · intro hd
    have : cellAt w.cells x y ≠ stepCell w x y := fun hc => hd hc.symm
    simp [this]

theorem claim_step_changed_witness :
    changedAt (World.step w33).cells_changed 2 0 = PyVal.bool true := by
  exact (claim_step_changed w33 2 0 (by decide) (by decide)).mpr (by decide)

theorem toggle_toggle (c : Cell) : toggle (toggle c) = c := by
  cases c <;> rfl

instance (w : World) : Decidable w.WF :=
  decidable_of_iff
    (w.cells.length = w.height ∧ (∀ r ∈ w.cells, r.length = w.width) ∧
      w.cells_changed.length = w.height ∧ (∀ r ∈ w.cells_changed, r.length = w.width))
    Iff.rfl

theorem getD_set_eq {α : Type} (l : List α) (i : Nat) (v d : α) (h : i < l.length) (j : Nat) :
    (l.set i v).getD j d = if j = i then v else l.getD j d := by
  by_cases hj : j = i
  · subst hj
    rw [List.getD_eq_getElem?_getD, List.getElem?_set_self h]
    simp
  · rw [List.getD_eq_getElem?_getD, List.getElem?_set_ne (fun he => hj he.symm),
      ← List.getD_eq_getElem?_getD]
    simp [hj]

theorem pyIdx_spec (len : Nat) (i : Int) (h1 : -(len : Int) ≤ i) (h2 : i < len) :
    0 ≤ pyIdx len i ∧ pyIdx len i < len ∧ (pyIdx len i).toNat < len := by
  unfold pyIdx; split <;> omega

theorem pyGet_in {α : Type} (l : List α) (i : Int) (d : α)
    (h1 : -(l.length : Int) ≤ i) (h2 : i < l.length) :
    pyGet l i = some (l.getD (pyIdx l.length i).toNat d) := by
  have h := pyIdx_spec l.length i h1 h2
  unfold pyGet
  rw [dif_pos ⟨h.1, h.2.2⟩]
  simp [List.getD_eq_getElem?_getD, List.getElem?_eq_getElem h.2.2, List.get_eq_getElem]

theorem pyGet_out {α : Type} (l : List α) (i : Int)
    (h : ¬(-(l.length : Int) ≤ i ∧ i < l.length)) : pyGet l i = none := by
  unfold pyGet
  rw [dif_neg]
  unfold pyIdx
  split <;> omega

theorem pySet_in {α : Type} (l : List α) (i : Int) (v : α)
    (h1 : -(l.length : Int) ≤ i) (h2 : i < l.length) :
    pySet l i v = some (l.set (pyIdx l.length i).toNat v) := by
  have h := pyIdx_spec l.length i h1 h2
  unfold pySet
  rw [if_pos ⟨h.1, h.2.2⟩]

theorem set_getD_self {α : Type} (l : List α) (n : Nat) (d : α) (h : n < l.length) :
    l.set n (l.getD n d) = l := by
  apply List.ext_getElem?
  intro i
  rw [List.getElem?_set]
  split
  · rename_i he
    subst he
    rw [List.getD_eq_getElem?_getD, List.getElem?_eq_getElem h]
    simp [h]
  · rfl

theorem cells_double_toggle (g : List (List Cell)) (yi xi : Nat)
    (hy : yi < g.length) (hx : xi < (g.getD yi []).length) :
    (g.set yi ((g.getD yi []).set xi (toggle ((g.getD yi []).getD xi Cell.DEAD)))).set yi
      (((g.set yi ((g.getD yi []).set xi
          (toggle ((g.getD yi []).getD xi Cell.DEAD)))).getD yi []).set xi
        (toggle (cellAt (g.set yi ((g.getD yi []).set xi
          (toggle ((g.getD yi []).getD xi Cell.DEAD)))) xi yi))) = g := by
  set row := g.getD yi [] with hrow
  set c := row.getD xi Cell.DEAD with hc
  have e8 : (g.set yi (row.set xi (toggle c))).getD yi [] = row.set xi (toggle c) := by
    rw [getD_set_eq _ _ _ _ hy yi, if_pos rfl]
  have e9 : cellAt (g.set yi (row.set xi (toggle c))) xi yi = toggle c := by
    unfold cellAt
    rw [e8, getD_set_eq _ _ _ _ (by simpa using hx) xi, if_pos rfl]
  rw [e8, e9, toggle_toggle, List.set_set, List.set_set, hc,
    set_getD_self _ _ _ hx, hrow, set_getD_self _ _ _ hy]

theorem fresh_changed_length (width height : Nat) :
    (fresh_changed width height).length = height := by
  simp [fresh_changed]

theorem fresh_changed_row (width height yi : Nat) (hy : yi < height) :
    (fresh_changed width height).getD yi [] = List.replicate width (PyVal.cell Cell.DEAD) := by
  simp [fresh_changed, List.getD_eq_getElem?_getD, List.getElem?_replicate, hy]

/-- Closed form of a successful `flip_cell`: the toggled position is the
Python-resolved (wrapped) index pair. -/
theorem flip_cell_eq (w : World) (hWF : w.WF) (x y : Int)
    (hx1 : -(w.width : Int) ≤ x) (hx2 : x < w.width)
    (hy1 : -(w.height : Int) ≤ y) (hy2 : y < w.height) :
    w.flip_cell x y = some { w with
      cells := w.cells.set (pyIdx w.height y).toNat
        ((w.cells.getD (pyIdx w.height y).toNat []).set (pyIdx w.width x).toNat
          (toggle (cellAt w.cells (pyIdx w.width x).toNat (pyIdx w.height y).toNat))),
      cells_changed := (fresh_changed w.width w.height).set (pyIdx w.height y).toNat
        ((List.replicate w.width (PyVal.cell Cell.DEAD)).set (pyIdx w.width x).toNat
          (PyVal.bool true)) } := by
  obtain ⟨hcl, hrl, hchl, hchr⟩ := hWF
  have hyspec := pyIdx_spec w.height y hy1 hy2
  have hxspec := pyIdx_spec w.width x hx1 hx2
  have hrow : w.cells.getD (pyIdx w.height y).toNat [] ∈ w.cells := by
    rw [List.getD_eq_getElem?_getD, List.getElem?_eq_getElem (by omega)]
    exact List.getElem_mem _
  have hrowlen : (w.cells.getD (pyIdx w.height y).toNat []).length = w.width :=
    hrl _ hrow
  have e1 : pyGet w.cells y = some (w.cells.getD (pyIdx w.height y).toNat []) := by
    rw [pyGet_in w.cells y [] (by omega) (by omega), hcl]
  have e2 : pyGet (w.cells.getD (pyIdx w.height y).toNat []) x =
      some (cellAt w.cells (pyIdx w.width x).toNat (pyIdx w.height y).toNat) := by
    rw [pyGet_in _ x Cell.DEAD (by omega) (by omega), hrowlen]
    rfl
  have e3 : pySet (w.cells.getD (pyIdx w.height y).toNat []) x
      (toggle (cellAt w.cells (pyIdx w.width x).toNat (pyIdx w.height y).toNat)) =
      some ((w.cells.getD (pyIdx w.height y).toNat []).set (pyIdx w.width x).toNat
        (toggle (cellAt w.cells (pyIdx w.width x).toNat (pyIdx w.height y).toNat))) := by
    rw [pySet_in _ x _ (by omega) (by omega), hrowlen]
  have e4 : ∀ r : List Cell, pySet w.cells y r =
      some (w.cells.set (pyIdx w.height y).toNat r) := by
    intro r
    rw [pySet_in _ y r (by omega) (by omega), hcl]
  have e5 : pyGet (fresh_changed w.width w.height) y =
      some (List.replicate w.width (PyVal.cell Cell.DEAD)) := by
    rw [pyGet_in _ y [] (by rw [fresh_changed_length]; omega)
      (by rw [fresh_changed_length]; omega), fresh_changed_length,
      fresh_changed_row _ _ _ (by omega)]
  have e6 : pySet (List.replicate w.width (PyVal.cell Cell.DEAD)) x (PyVal.bool true) =
      some ((List.replicate w.width (PyVal.cell Cell.DEAD)).set (pyIdx w.width x).toNat
        (PyVal.bool true)) := by
    rw [pySet_in _ x _ (by simp; omega) (by simp; omega), List.length_replicate]
  have e7 : ∀ r : List PyVal, pySet (fresh_changed w.width w.height) y r =
      some ((fresh_changed w.width w.height).set (pyIdx w.height y).toNat r) := by
    intro r
    rw [pySet_in _ y r (by rw [fresh_changed_length]; omega)
      (by rw [fresh_changed_length]; omega), fresh_changed_length]
  simp only [World.flip_cell, e1, e2, e3, e4 _, e5, e6, e7 _]

/-- An out-of-range coordinate (outside even Python's doubled negative
range) makes `flip_cell` raise IndexError before any modification. -/
theorem flip_cell_none (w : World) (hWF : w.WF) (x y : Int)
    (h : ¬(-(w.width : Int) ≤ x ∧ x < w.width ∧ -(w.height : Int) ≤ y ∧ y < w.height)) :
    w.flip_cell x y = none := by
  obtain ⟨hcl, hrl, hchl, hchr⟩ := hWF
  by_cases hy : -(w.height : Int) ≤ y ∧ y < w.height
  · have hx : ¬(-(w.width : Int) ≤ x ∧ x < w.width) := by tauto
    have hyspec := pyIdx_spec w.height y hy.1 hy.2
    have hrow : w.cells.getD (pyIdx w.height y).toNat [] ∈ w.cells := by
      rw [List.getD_eq_getElem?_getD, List.getElem?_eq_getElem (by omega)]
      exact List.getElem_mem _
    have hrowlen : (w.cells.getD (pyIdx w.height y).toNat []).length = w.width :=
      hrl _ hrow
    have e1 : pyGet w.cells y = some (w.cells.getD (pyIdx w.height y).toNat []) := by
      rw [pyGet_in w.cells y [] (by omega) (by omega), hcl]
    have e2 : pyGet (w.cells.getD (pyIdx w.height y).toNat []) x = none := by
      apply pyGet_out
      rw [hrowlen]
      omega
    simp only [World.flip_cell, e1, e2]
  · have e1 : pyGet w.cells y = none := by
      apply pyGet_out
      rw [hcl]
      omega
    simp only [World.flip_cell, e1]

/-- C4 is a code bug: after `flip_cell`, the non-flipped entries of
`cells_changed` are the truthy Python value `Cell.DEAD`, not `False`,
because `_fresh_cells` ignores its `state` parameter.  Only the flipped
position holds an actual boolean. -/
theorem claim_flip_changed_bug :
    (World.flip_cell w33 0 0).isSome = true ∧
    changedAt ((World.flip_cell w33 0 0).getD emptyWorld).cells_changed 0 0 =
      PyVal.bool true ∧
    changedAt ((World.flip_cell w33 0 0).getD emptyWorld).cells_changed 1 1 =
      PyVal.cell Cell.DEAD ∧
    PyVal.cell Cell.DEAD ≠ PyVal.bool false ∧
    PyVal.cell Cell.DEAD ≠ PyVal.bool true := by
  decide

/-- C5 as written is false: `flip_cell(-1, 0)` is out of [0,width) but is
not rejected; Python's negative indexing silently wraps it to the last
column and toggles that cell. -/
theorem claim_flip_oob_counterexample :
    (World.flip_cell w33 (-1) 0).isSome = true ∧
    ((World.flip_cell w33 (-1) 0).getD emptyWorld).cells ≠ w33.cells ∧
    cellAt ((World.flip_cell w33 (-1) 0).getD emptyWorld).cells 2 0 =
      toggle (cellAt w33.cells 2 0) := by
  decide

/-- C5 amended: coordinates below -width (resp. -height) or at/above
width (resp. height) are rejected deterministically with IndexError and
nothing is modified; but coordinates in [-width, 0) or [-height, 0) are
silently wrapped by Python list indexing (index + length) and the wrapped
cell is toggled. -/
theorem claim_flip_oob (w : World) (hWF : w.WF) (x y : Int) :
    ((w.flip_cell x y).isSome ↔
      (-(w.width : Int) ≤ x ∧ x < w.width ∧ -(w.height : Int) ≤ y ∧ y < w.height)) ∧
    (∀ w', w.flip_cell x y = some w' →
      ∀ a b : Nat, a < w.width → b < w.height →
        cellAt w'.cells a b =
          if a = (pyIdx w.width x).toNat ∧ b = (pyIdx w.height y).toNat then
            toggle (cellAt w.cells a b)
          else cellAt w.cells a b) := by
  constructor
  · constructor
    · intro hs
      by_contra h
      rw [flip_cell_none w hWF x y h] at hs
      simp at hs
    · intro h
      rw [flip_cell_eq w hWF x y h.1 h.2.1 h.2.2.1 h.2.2.2]
      rfl
  · intro w' hw' a b ha hb
    by_cases h : -(w.width : Int) ≤ x ∧ x < w.width ∧ -(w.height : Int) ≤ y ∧ y < w.height
    · rw [flip_cell_eq w hWF x y h.1 h.2.1 h.2.2.1 h.2.2.2] at hw'
      obtain ⟨hcl, hrl, hchl, hchr⟩ := hWF
      have hyspec := pyIdx_spec w.height y h.2.2.1 h.2.2.2
      have hxspec := pyIdx_spec w.width x h.1 h.2.1
      have hrow : w.cells.getD (pyIdx w.height y).toNat [] ∈ w.cells := by
        rw [List.getD_eq_getElem?_getD, List.getElem?_eq_getElem (by omega)]
        exact List.getElem_mem _
      have hrowlen : (w.cells.getD (pyIdx w.height y).toNat []).length = w.width :=
        hrl _ hrow
      cases hw'
      unfold cellAt
      rw [getD_set_eq _ _ _ _ (by omega) b]
      by_cases hbeq : b = (pyIdx w.height y).toNat
      · rw [if_pos hbeq]
        rw [getD_set_eq _ _ _ _ (by omega) a]
        by_cases haeq : a = (pyIdx w.width x).toNat
        · rw [if_pos haeq, if_pos ⟨haeq, hbeq⟩, haeq, hbeq]
        · rw [if_neg haeq, if_neg (by tauto), hbeq]
      · rw [if_neg hbeq, if_neg (by tauto)]
    · rw [flip_cell_none w hWF x y h] at hw'
      cases hw'

theorem claim_flip_oob_witness :
    (World.flip_cell w33 5 5).isSome = false := by
  have h := (claim_flip_oob w33 (by decide) 5 5).1
  cases hs : (World.flip_cell w33 5 5).isSome
  · rfl
  · exact absurd (h.mp hs) (by decide)

/-- C9 as written is false: after two consecutive flips the change set is
the reset pattern of the second flip, not whatever it was before the
first flip (here: the all-Cell.DEAD initial change set). -/
theorem claim_double_flip_counterexample :
    (World.flip_cell w33 0 0).isSome = true ∧
    (((World.flip_cell w33 0 0).getD emptyWorld).flip_cell 0 0).isSome = true ∧
    ((((World.flip_cell w33 0 0).getD emptyWorld).flip_cell 0 0).getD
      emptyWorld).cells_changed ≠ w33.cells_changed := by
  decide

/-- C9 amended: flipping the same in-range cell twice restores every
cell's state, but not the change set: the change set after the second
flip equals the reset pattern produced by the first flip (all entries
Cell.DEAD except True at (x, y)), whatever it contained before. -/
theorem claim_double_flip (w : World) (hWF : w.WF) (x y : Int)
    (hx1 : 0 ≤ x) (hx2 : x < w.width) (hy1 : 0 ≤ y) (hy2 : y < w.height) :
    ∃ w1 w2, w.flip_cell x y = some w1 ∧ w1.flip_cell x y = some w2 ∧
      w2.cells = w.cells ∧ w2.cells_changed = w1.cells_changed := by
  obtain ⟨hcl, hrl, hchl, hchr⟩ := hWF
  have hyspec := pyIdx_spec w.height y (by omega) hy2
  have hxspec := pyIdx_spec w.width x (by omega) hx2
  have hrow : w.cells.getD (pyIdx w.height y).toNat [] ∈ w.cells := by
    rw [List.getD_eq_getElem?_getD, List.getElem?_eq_getElem (by omega)]
    exact List.getElem_mem _
  have hrowlen : (w.cells.getD (pyIdx w.height y).toNat []).length = w.width :=
    hrl _ hrow
  have h1 := flip_cell_eq w ⟨hcl, hrl, hchl, hchr⟩ x y (by omega) hx2 (by omega) hy2
  have hWF1 : World.WF { w with
      cells := w.cells.set (pyIdx w.height y).toNat
        ((w.cells.getD (pyIdx w.height y).toNat []).set (pyIdx w.width x).toNat
          (toggle (cellAt w.cells (pyIdx w.width x).toNat (pyIdx w.height y).toNat))),
      cells_changed := (fresh_changed w.width w.height).set (pyIdx w.height y).toNat
        ((List.replicate w.width (PyVal.cell Cell.DEAD)).set (pyIdx w.width x).toNat
          (PyVal.bool true)) } := by
    refine ⟨by simpa using hcl, ?_, by simp [fresh_changed_length], ?_⟩
    · intro r hr
      simp only at hr
      rcases List.mem_or_eq_of_mem_set hr with h | h
      · exact hrl _ h
      · subst h
        rw [List.length_set]
        exact hrowlen
    · intro r hr
      simp only at hr
      rcases List.mem_or_eq_of_mem_set hr with h | h
      · rw [fresh_changed] at h
        have := List.eq_of_mem_replicate h
        simp [this]
      · subst h
        simp
  have h2 := flip_cell_eq _ hWF1 x y (by show -(w.width : Int) ≤ x; omega)
    (by show x < (w.width : Int); omega) (by show -(w.height : Int) ≤ y; omega)
    (by show y < (w.height : Int); omega)
  refine ⟨_, _, h1, h2, ?_, ?_⟩
  · exact cells_double_toggle w.cells (pyIdx w.height y).toNat (pyIdx w.width x).toNat
      (by omega) (by rw [hrowlen]; omega)
  · rfl

theorem claim_double_flip_witness :
    ∃ w1 w2, World.flip_cell w33 0 0 = some w1 ∧ w1.flip_cell 0 0 = some w2 ∧
      w2.cells = w33.cells ∧ w2.cells_changed = w1.cells_changed := by
  exact claim_double_flip w33 (by decide) 0 0 (by decide) (by decide) (by decide) (by decide)

/-- The five glider seed positions of life.py 93-98, in (x, y) form. -/
def gliderCells : List (Nat × Nat) := [(2, 0), (2, 1), (2, 2), (1, 2), (0, 1)]

/-- Closed form of one glider assignment `cells[r][c] = Cell.ALIVE`. -/
def seedOne (g : List (List Cell)) (r c : Nat) : List (List Cell) :=
  g.set r ((g.getD r []).set c Cell.ALIVE)

/-- Closed form of the grid built by `World.__init__` when it does not
raise: the fresh grid with the five glider assignments applied. -/
def gliderGrid (width height : Nat) : List (List Cell) :=
  seedOne (seedOne (seedOne (seedOne (seedOne (fresh_cells width height) 0 2) 1 2) 2 2) 2 1) 1 0

/-- Row profile of a grid: `height` rows, each of length `width`. -/
def Dims (g : List (List Cell)) (width height : Nat) : Prop :=
  g.length = height ∧ ∀ j, j < height → (g.getD j []).length = width

theorem getD_eq_getElem' {α : Type} (l : List α) (i : Nat) (d : α) (h : i < l.length) :
    l.getD i d = l[i] := by
  rw [List.getD_eq_getElem?_getD, List.getElem?_eq_getElem h]
  rfl

theorem dims_fresh (width height : Nat) : Dims (fresh_cells width height) width height := by
  constructor
  · simp [fresh_cells]
  · intro j hj
    simp [fresh_cells, List.getD_eq_getElem?_getD, List.getElem?_replicate, hj]

theorem dims_seedOne (g : List (List Cell)) (width height r c : Nat)
    (hd : Dims g width height) (hr : r < height) :
    Dims (seedOne g r c) width height := by
  obtain ⟨hl, hrow⟩ := hd
  refine ⟨by simp [seedOne, hl], ?_⟩
  intro j hj
  unfold seedOne
  rw [getD_set_eq _ _ _ _ (by omega) j]
  by_cases hjr : j = r
  · rw [if_pos hjr, List.length_set]
    exact hrow r hr

  · rw [if_neg hjr]
    exact hrow j hj

theorem setC_eq_seedOne (g : List (List Cell)) (width height r c : Nat)
    (hd : Dims g width height) (hr : r < height) (hc : c < width) :
    setC g r c Cell.ALIVE = some (seedOne g r c) := by
  obtain ⟨hl, hrow⟩ := hd
  have hr' : r < g.length := by omega
  unfold setC
  rw [List.getElem?_eq_getElem hr']
  show (if c < g[r].length then some (g.set r (g[r].set c Cell.ALIVE)) else none) = _
  rw [← getD_eq_getElem' g r [] hr']
  rw [if_pos (by rw [hrow r hr]; omega)]
  rfl

theorem setC_none (g : List (List Cell)) (r c : Nat) (v : Cell)
    (h : ¬(r < g.length ∧ c < (g.getD r []).length)) : setC g r c v = none := by
  unfold setC
  cases hgr : g[r]? with
  | none => rfl
  | some row =>
    have hr : r < g.length := by
      by_contra hcon
      rw [List.getElem?_eq_none (by omega)] at hgr
      cases hgr
    have hrow : row = g.getD r [] := by
      have h2 : g[r]? = some (g.getD r []) := by
        rw [List.getElem?_eq_getElem hr, getD_eq_getElem' g r [] hr]
      rw [hgr] at h2
      exact Option.some_inj.mp h2
    show (if c < row.length then some (g.set r (row.set c v)) else none) = none
    rw [hrow, if_neg (by tauto)]

theorem cellAt_fresh (width height x y : Nat) :
    cellAt (fresh_cells width height) x y = Cell.DEAD := by
  unfold cellAt fresh_cells
  by_cases hy : y < height
  · by_cases hx : x < width <;>
      simp [List.getD_eq_getElem?_getD, List.getElem?_replicate, hy, hx]
  · simp [List.getD_eq_getElem?_getD, List.getElem?_replicate, hy]

theorem cellAt_seedOne (g : List (List Cell)) (r c : Nat)
    (hr : r < g.length) (hc : c < (g.getD r []).length) (x y : Nat) :
    cellAt (seedOne g r c) x y = if x = c ∧ y = r then Cell.ALIVE else cellAt g x y := by
  unfold cellAt seedOne
  rw [getD_set_eq _ _ _ _ hr y]
  by_cases hy : y = r
  · rw [if_pos hy, getD_set_eq _ _ _ _ hc x]
    by_cases hx : x = c
    · rw [if_pos hx, if_pos ⟨hx, hy⟩]
    · rw [if_neg hx, if_neg (by tauto), hy]
  · rw [if_neg hy, if_neg (by tauto)]

theorem init_eq (width height : Nat) (hw : 3 ≤ width) (hh : 3 ≤ height) :
    World.init width height =
      some (World.mk width height (gliderGrid width height) (fresh_changed width height)) := by
  have d0 := dims_fresh width height
  have d1 := dims_seedOne _ _ _ _ 2 d0 (by omega : 0 < height)
  have d2 := dims_seedOne _ _ _ _ 2 d1 (by omega : 1 < height)
  have d3 := dims_seedOne _ _ _ _ 2 d2 (by omega : 2 < height)
  have d4 := dims_seedOne _ _ _ _ 1 d3 (by omega : 2 < height)
  have e1 := setC_eq_seedOne _ _ _ _ _ d0 (by omega : 0 < height) (by omega : 2 < width)
  have e2 := setC_eq_seedOne _ _ _ _ _ d1 (by omega : 1 < height) (by omega : 2 < width)
  have e3 := setC_eq_seedOne _ _ _ _ _ d2 (by omega : 2 < height) (by omega : 2 < width)
  have e4 := setC_eq_seedOne _ _ _ _ _ d3 (by omega : 2 < height) (by omega : 1 < width)
  have e5 := setC_eq_seedOne _ _ _ _ _ d4 (by omega : 1 < height) (by omega : 0 < width)
  simp only [World.init, e1, e2, e3, e4, e5, gliderGrid]

theorem init_none (width height : Nat) (h : width < 3 ∨ height < 3) :
    World.init width height = none := by
  have d0 := dims_fresh width height
  by_cases h0 : 0 < height ∧ 2 < width
  · have e1 := setC_eq_seedOne _ _ _ _ _ d0 h0.1 h0.2
    have d1 := dims_seedOne _ _ _ _ 2 d0 h0.1
    have hh3 : height < 3 := by omega
    by_cases h1 : 1 < height
    · have e2 := setC_eq_seedOne _ _ _ _ _ d1 h1 h0.2
      have d2 := dims_seedOne _ _ _ _ 2 d1 h1
      have e3 : setC (seedOne (seedOne (fresh_cells width height) 0 2) 1 2) 2 2
          Cell.ALIVE = none := by
        apply setC_none
        intro hcon
        have := d2.1
        omega
      simp only [World.init, e1, e2, e3]
    · have e2 : setC (seedOne (fresh_cells width height) 0 2) 1 2 Cell.ALIVE = none := by
        apply setC_none
        intro hcon
        have := d1.1
        omega
      simp only [World.init, e1, e2]
  · have e1 : setC (fresh_cells width height) 0 2 Cell.ALIVE = none := by
      apply setC_none
      intro hcon
      have h1 := d0.1
      by_cases hh : 0 < height
      · have := d0.2 0 hh
        omega
      · omega
    simp only [World.init, e1]

theorem cellAt_gliderGrid (width height : Nat) (hw : 3 ≤ width) (hh : 3 ≤ height)
    (x y : Nat) :
    cellAt (gliderGrid width height) x y =
      if (x, y) ∈ gliderCells then Cell.ALIVE else Cell.DEAD := by
  have d0 := dims_fresh width height
  have d1 := dims_seedOne _ _ _ _ 2 d0 (by omega : 0 < height)
  have d2 := dims_seedOne _ _ _ _ 2 d1 (by omega : 1 < height)
  have d3 := dims_seedOne _ _ _ _ 2 d2 (by omega : 2 < height)
  have d4 := dims_seedOne _ _ _ _ 1 d3 (by omega : 2 < height)
  unfold gliderGrid
  rw [cellAt_seedOne _ _ _ (by rw [d4.1]; omega) (by rw [d4.2 1 (by omega)]; omega) x y]
  rw [cellAt_seedOne _ _ _ (by rw [d3.1]; omega) (by rw [d3.2 2 (by omega)]; omega) x y]
  rw [cellAt_seedOne _ _ _ (by rw [d2.1]; omega) (by rw [d2.2 2 (by omega)]; omega) x y]
  rw [cellAt_seedOne _ _ _ (by rw [d1.1]; omega) (by rw [d1.2 1 (by omega)]; omega) x y]
  rw [cellAt_seedOne _ _ _ (by rw [d0.1]; omega) (by rw [d0.2 0 (by omega)]; omega) x y]
  rw [cellAt_fresh]
  simp only [gliderCells, List.mem_cons, List.not_mem_nil, or_false, Prod.mk.injEq]
  split_ifs <;> first | rfl | omega

/-- C7 as written is false: a 1 x 1 World (width > 0, height > 0) cannot
be constructed at all; the glider seeding raises IndexError. -/
theorem claim_world_init_counterexample : World.init 1 1 = none := by decide

/-- C7 amended: construction succeeds exactly when width and height are
at least 3 (the glider seeding raises IndexError on anything smaller),
and then every cell is Dead except the five glider cells
(2,0) (2,1) (2,2) (1,2) (0,1), which are Alive. -/
theorem claim_world_init (width height : Nat) :
    (3 ≤ width → 3 ≤ height →
      ∃ wld, World.init width height = some wld ∧
        wld.width = width ∧ wld.height = height ∧
        ∀ x y : Nat, x < width → y < height →
          cellAt wld.cells x y =
            if (x, y) ∈ gliderCells then Cell.ALIVE else Cell.DEAD) ∧
    (width < 3 ∨ height < 3 → World.init width height = none) := by
  constructor
  · intro hw hh
    refine ⟨_, init_eq width height hw hh, rfl, rfl, ?_⟩
    intro x y hx hy
    exact cellAt_gliderGrid width height hw hh x y
  · exact init_none width height

theorem claim_world_init_witness :
    (∃ wld, World.init 5 5 = some wld ∧
      wld.width = 5 ∧ wld.height = 5 ∧
      ∀ x y : Nat, x < 5 → y < 5 →
        cellAt wld.cells x y =
          if (x, y) ∈ gliderCells then Cell.ALIVE else Cell.DEAD) ∧
    World.init 1 2 = none :=
  ⟨(claim_world_init 5 5).1 (by decide) (by decide),
   (claim_world_init 1 2).2 (by decide)⟩

/-- C6 as written is false: a Stepper constructed with a non-positive
interval is created normally and stores that interval; nothing is
rejected. -/
theorem claim_invalid_config_counterexample :
    (Stepper.init (-1)).interval = -1 ∧ (Stepper.init 0).interval = 0 := by
  constructor <;> rfl

/-- C6 amended: no configuration validation exists anywhere.  The Stepper
constructor and `set_interval` accept and store any interval, including
non-positive ones.  `World.__init__` performs no dimension check either:
non-positive (and any smaller-than-3) dimensions fail only incidentally,
with an IndexError raised by the glider seeding, while anything at least
3 x 3 is constructed. -/
theorem claim_invalid_config (i : ℚ) (hi : i ≤ 0) :
    (Stepper.init i).interval = i ∧
    (Stepper.init i).running = false ∧
    (∀ s : Stepper, (Stepper.set_interval s i).interval = i) ∧
    (∀ wd ht : Nat, wd = 0 ∨ ht = 0 → World.init wd ht = none) := by
  refine ⟨rfl, rfl, ?_, ?_⟩
  · intro s
    simp only [Stepper.set_interval, Stepper.run1]
    split_ifs <;> rfl
  · intro wd ht h
    exact init_none wd ht (by omega)

theorem claim_invalid_config_witness :
    (Stepper.init (-2)).interval = -2 ∧
    (Stepper.init (-2)).running = false ∧
    (∀ s : Stepper, (Stepper.set_interval s (-2)).interval = -2) ∧
    (∀ wd ht : Nat, wd = 0 ∨ ht = 0 → World.init wd ht = none) :=
  claim_invalid_config (-2) (by norm_num)

/-- C10 as written is false: `start()` calls `_run()` synchronously, so
the callback runs once immediately, before any interval has elapsed;
start-then-stop therefore yields one invocation, not zero. -/
theorem claim_stepper_start_counterexample :
    ¬(((Stepper.init 1).start.stop).calls = 0) := by decide

/-- C10 amended: `start()` on a stopped Stepper synchronously invokes the
callback exactly once (before any interval delay) and then schedules the
interval timer; stopping before that timer fires leaves the total at
exactly one invocation, and cancels the pending timer. -/
theorem claim_stepper_start (s : Stepper) (hrun : s.running = false) :
    (Stepper.start s).calls = s.calls + 1 ∧
    (Stepper.start s).pending = true ∧
    ((Stepper.start s).stop).calls = s.calls + 1 ∧
    ((Stepper.start s).stop).pending = false := by
  unfold Stepper.start Stepper.stop Stepper.run1
  simp [hrun]

theorem claim_stepper_start_witness :
    ((Stepper.init 1).start).calls = 0 + 1 ∧
    ((Stepper.init 1).start).pending = true ∧
    (((Stepper.init 1).start).stop).calls = 0 + 1 ∧
    (((Stepper.init 1).start).stop).pending = false :=
  claim_stepper_start (Stepper.init 1) rfl

/-- Nat form of Python `(v - 1) % m` for `v < m`. -/
def wrapDec (m v : Nat) : Nat := if v = 0 then m - 1 else v - 1

/-- Nat form of Python `(v + 1) % m` for `v < m`. -/
def wrapInc (m v : Nat) : Nat := if v + 1 = m then 0 else v + 1

/-- The 8 neighbor pairs of `neighbors`, already resolved to Nat indices. -/
def nbrsN (width height x y : Nat) : List (Nat × Nat) :=
  [(wrapDec width x, wrapDec height y), (x, wrapDec height y),
   (wrapInc width x, wrapDec height y),
   (wrapDec width x, y), (wrapInc width x, y),
   (wrapDec width x, wrapInc height y), (x, wrapInc height y),
   (wrapInc width x, wrapInc height y)]

/-- Grid cell of the set representation: Alive exactly on S. -/
def memC (S : List (Nat × Nat)) (x y : Nat) : Cell :=
  if (x, y) ∈ S then Cell.ALIVE else Cell.DEAD

/-- The transition rule of lines 123-126 as a function of the old cell
and the list of neighbor cells. -/
def lifeRule (old : Cell) (l : List Cell) : Cell :=
  if l.count Cell.ALIVE = 3 then Cell.ALIVE
  else if l.count Cell.ALIVE = 2 then old
  else Cell.DEAD

/-- Abstract cell lookup through axis labels: `some a` stands for the
concrete coordinate `a` (at most 3), `none` for a coordinate that is at
least 4 and hence outside any of the glider generations. -/
def labelCell (S : List (Nat × Nat)) : Option Nat → Option Nat → Cell
  | some a, some b => memC S a b
  | some _, none => Cell.DEAD
  | none, _ => Cell.DEAD

/-- Labels of the three torus columns (or rows) around one coordinate:
predecessor, the coordinate itself, successor. -/
structure AxisClass where
  m : Option Nat
  c : Option Nat
  p : Option Nat
deriving DecidableEq, Repr

/-- The 8 possible label triples of a coordinate v < m when m is at
least 5: v = 0, 1, 2, 3; v = 4 on a 5-wide axis; v = 4 on a wider axis;
5 <= v <= m - 2; v = m - 1 with m at least 6. -/
def axisClasses : List AxisClass :=
  [⟨none, some 0, some 1⟩, ⟨some 0, some 1, some 2⟩, ⟨some 1, some 2, some 3⟩,
   ⟨some 2, some 3, none⟩, ⟨some 3, none, some 0⟩, ⟨some 3, none, none⟩,
   ⟨none, none, none⟩, ⟨none, none, some 0⟩]

/-- The 8 neighbor cells of a cell, written through axis labels, in the
same order as `nbrsN`. -/
def classCells (S : List (Nat × Nat)) (cx cy : AxisClass) : List Cell :=
  [labelCell S cx.m cy.m, labelCell S cx.c cy.m, labelCell S cx.p cy.m,
   labelCell S cx.m cy.c, labelCell S cx.p cy.c,
   labelCell S cx.m cy.p, labelCell S cx.c cy.p, labelCell S cx.p cy.p]

/-- Decidable core of one torus step on set representations: over every
pair of axis classes, applying the rule to the abstract neighborhood of S
yields the abstract cell of S'. -/
def LocalCheck (S S' : List (Nat × Nat)) : Prop :=
  ∀ cx ∈ axisClasses, ∀ cy ∈ axisClasses,
    lifeRule (labelCell S cx.c cy.c) (classCells S cx cy) = labelCell S' cx.c cy.c

instance (S S' : List (Nat × Nat)) : Decidable (LocalCheck S S') :=
  decidable_of_iff
    (∀ cx ∈ axisClasses, ∀ cy ∈ axisClasses,
      lifeRule (labelCell S cx.c cy.c) (classCells S cx cy) = labelCell S' cx.c cy.c)
    Iff.rfl

/-- A coordinate value matches its label: `some a` means the value is
exactly a, `none` means it is at least 4. -/
def ColOK (v : Nat) : Option Nat → Prop
  | some a => v = a
  | none => 4 ≤ v

/-- All positions of the set lie in the 4 x 4 box [0,3] x [0,3]. -/
def Bounds (S : List (Nat × Nat)) : Prop := ∀ p ∈ S, p.1 ≤ 3 ∧ p.2 ≤ 3

instance (S : List (Nat × Nat)) : Decidable (Bounds S) :=
  decidable_of_iff (∀ p ∈ S, p.1 ≤ 3 ∧ p.2 ≤ 3) Iff.rfl

/-- The world's grid is Alive exactly on S (inside the dimensions). -/
def RepW (wld : World) (S : List (Nat × Nat)) : Prop :=
  ∀ x y : Nat, x < wld.width → y < wld.height → cellAt wld.cells x y = memC S x y

/-- Glider generations 1 to 4 on the plane (computed from gliderCells by
the B3/S23 rule); generation 4 is generation 0 translated by (1, 1). -/
def gen1 : List (Nat × Nat) := [(1, 0), (2, 1), (3, 1), (1, 2), (2, 2)]

def gen2 : List (Nat × Nat) := [(2, 0), (3, 1), (1, 2), (2, 2), (3, 2)]

def gen3 : List (Nat × Nat) := [(1, 1), (3, 1), (2, 2), (3, 2), (2, 3)]

def gen4 : List (Nat × Nat) := [(3, 1), (3, 2), (3, 3), (2, 3), (1, 2)]

theorem toNat_emod_sub_one (m a : Nat) (hm : 1 ≤ m) (ha : a < m) :
    (((a : Int) - 1) % (m : Int)).toNat = wrapDec m a := by
  unfold wrapDec
  by_cases h0 : a = 0
  · subst h0
    have h1 : ((0 : Int) - 1) % (m : Int) = (m : Int) - 1 := by
      have h2 : ((0 : Int) - 1) = ((m : Int) - 1) + (m : Int) * (-1) := by ring
      rw [h2, Int.add_mul_emod_self_left, Int.emod_eq_of_lt (by omega) (by omega)]
    rw [Nat.cast_zero, h1, if_pos rfl]
    omega
  · have h1 : ((a : Int) - 1) % (m : Int) = (a : Int) - 1 :=
      Int.emod_eq_of_lt (by omega) (by omega)
    rw [h1, if_neg h0]
    omega

theorem toNat_emod_add_zero (m a : Nat) (ha : a < m) :
    (((a : Int) + 0) % (m : Int)).toNat = a := by
  rw [Int.add_zero, Int.emod_eq_of_lt (by omega) (by omega)]
  omega

theorem toNat_emod_add_one (m a : Nat) (ha : a < m) :
    (((a : Int) + 1) % (m : Int)).toNat = wrapInc m a := by
  unfold wrapInc
  by_cases h0 : a + 1 = m
  · have h1 : ((a : Int) + 1) = (m : Int) := by omega
    rw [h1, Int.emod_self, if_pos h0]
    rfl
  · rw [Int.emod_eq_of_lt (by omega) (by omega), if_neg h0]
    omega

theorem livingNeighbors_eq (wld : World) (x y : Nat)
    (hx : x < wld.width) (hy : y < wld.height) :
    livingNeighbors wld x y =
      ((nbrsN wld.width wld.height x y).map
        (fun p => cellAt wld.cells p.1 p.2)).count Cell.ALIVE := by
  unfold livingNeighbors neighbors nbrsN
  simp only [List.map_cons, List.map_nil]
  rw [toNat_emod_sub_one wld.width x (by omega) hx,
    toNat_emod_add_zero wld.width x hx,
    toNat_emod_add_one wld.width x hx,
    toNat_emod_sub_one wld.height y (by omega) hy,
    toNat_emod_add_zero wld.height y hy,
    toNat_emod_add_one wld.height y hy]

theorem stepCell_eq (wld : World) (x y : Nat)
    (hx : x < wld.width) (hy : y < wld.height) :
    stepCell wld x y = lifeRule (cellAt wld.cells x y)
      ((nbrsN wld.width wld.height x y).map (fun p => cellAt wld.cells p.1 p.2)) := by
  unfold stepCell lifeRule
  rw [livingNeighbors_eq wld x y hx hy]

theorem wrapDec_lt (m v : Nat) (hm : 1 ≤ m) (hv : v < m) : wrapDec m v < m := by
  unfold wrapDec
  split <;> omega

theorem wrapInc_lt (m v : Nat) (hm : 1 ≤ m) (hv : v < m) : wrapInc m v < m := by
  unfold wrapInc
  split <;> omega

theorem classify (m v : Nat) (hm : 5 ≤ m) (hv : v < m) :
    ∃ cl ∈ axisClasses,
      ColOK (wrapDec m v) cl.m ∧ ColOK v cl.c ∧ ColOK (wrapInc m v) cl.p := by
  rcases Nat.lt_or_ge v 4 with h4 | h4
  · interval_cases v
    · refine ⟨⟨none, some 0, some 1⟩, by decide, ?_, rfl, ?_⟩
      · show 4 ≤ wrapDec m 0
        unfold wrapDec
        rw [if_pos rfl]
        omega
      · show wrapInc m 0 = 1
        unfold wrapInc
        rw [if_neg (by omega)]
    · refine ⟨⟨some 0, some 1, some 2⟩, by decide, ?_, rfl, ?_⟩
      · show wrapDec m 1 = 0
        unfold wrapDec
        rw [if_neg (by omega)]
      · show wrapInc m 1 = 2
        unfold wrapInc
        rw [if_neg (by omega)]
    · refine ⟨⟨some 1, some 2, some 3⟩, by decide, ?_, rfl, ?_⟩
      · show wrapDec m 2 = 1
        unfold wrapDec
        rw [if_neg (by omega)]
      · show wrapInc m 2 = 3
        unfold wrapInc
        rw [if_neg (by omega)]
    · refine ⟨⟨some 2, some 3, none⟩, by decide, ?_, rfl, ?_⟩
      · show wrapDec m 3 = 2
        unfold wrapDec
        rw [if_neg (by omega)]
      · show 4 ≤ wrapInc m 3
        unfold wrapInc
        rw [if_neg (by omega)]
  · by_cases hlast : v + 1 = m
    · by_cases h44 : v = 4
      · refine ⟨⟨some 3, none, some 0⟩, by decide, ?_, by show 4 ≤ v; omega, ?_⟩
        · show wrapDec m v = 3
          unfold wrapDec
          rw [if_neg (by omega)]
          omega
        · show wrapInc m v = 0
          unfold wrapInc
          rw [if_pos hlast]
      · refine ⟨⟨none, none, some 0⟩, by decide, ?_, by show 4 ≤ v; omega, ?_⟩
        · show 4 ≤ wrapDec m v
          unfold wrapDec
          rw [if_neg (by omega)]
          omega
        · show wrapInc m v = 0
          unfold wrapInc
          rw [if_pos hlast]
    · by_cases h44 : v = 4
      · refine ⟨⟨some 3, none, none⟩, by decide, ?_, by show 4 ≤ v; omega, ?_⟩
        · show wrapDec m v = 3
          unfold wrapDec
          rw [if_neg (by omega)]
          omega
        · show 4 ≤ wrapInc m v
          unfold wrapInc
          rw [if_neg hlast]
          omega
      · refine ⟨⟨none, none, none⟩, by decide, ?_, by show 4 ≤ v; omega, ?_⟩
        · show 4 ≤ wrapDec m v
          unfold wrapDec
          rw [if_neg (by omega)]
          omega
        · show 4 ≤ wrapInc m v
          unfold wrapInc
          rw [if_neg hlast]
          omega

theorem memC_label (S : List (Nat × Nat)) (hS : Bounds S) (cv rv : Nat)
    (la lb : Option Nat) (ha : ColOK cv la) (hb : ColOK rv lb) :
    memC S cv rv = labelCell S la lb := by
  cases la with
  | some a =>
    cases lb with
    | some b =>
      have ha' : cv = a := ha
      have hb' : rv = b := hb
      subst ha' hb'
      rfl
    | none =>
      have hb' : 4 ≤ rv := hb
      have hnot : (cv, rv) ∉ S := fun hmem => by
        have := hS _ hmem
        simp only at this
        omega
      unfold memC labelCell
      rw [if_neg hnot]
  | none =>
    have ha' : 4 ≤ cv := ha
    have hnot : (cv, rv) ∉ S := fun hmem => by
      have := hS _ hmem
      simp only at this
      omega
    unfold memC labelCell
    rw [if_neg hnot]

theorem rep_step (wld : World) (S S' : List (Nat × Nat))
    (hw : 5 ≤ wld.width) (hh : 5 ≤ wld.height)
    (hS : Bounds S) (hS' : Bounds S') (hloc : LocalCheck S S')
    (hrep : RepW wld S) : RepW wld.step S' := by
  intro x y hx hy
  have hx' : x < wld.width := hx
  have hy' : y < wld.height := hy
  have hcells : (World.step wld).cells = stepCells wld := rfl
  show cellAt (World.step wld).cells x y = memC S' x y
  rw [hcells, cellAt_stepCells wld x y hx' hy', stepCell_eq wld x y hx' hy']
  obtain ⟨cx, hcxmem, hcxm, hcxc, hcxp⟩ := classify wld.width x hw hx'
  obtain ⟨cy, hcymem, hcym, hcyc, hcyp⟩ := classify wld.height y hh hy'
  have hrw : ∀ cv rv : Nat, ∀ la lb : Option Nat, cv < wld.width → rv < wld.height →
      ColOK cv la → ColOK rv lb → cellAt wld.cells cv rv = labelCell S la lb :=
    fun cv rv la lb h1 h2 h3 h4 => (hrep cv rv h1 h2).trans (memC_label S hS cv rv la lb h3 h4)
  have bxm : wrapDec wld.width x < wld.width := wrapDec_lt _ _ (by omega) hx'
  have bxp : wrapInc wld.width x < wld.width := wrapInc_lt _ _ (by omega) hx'
  have bym : wrapDec wld.height y < wld.height := wrapDec_lt _ _ (by omega) hy'
  have byp : wrapInc wld.height y < wld.height := wrapInc_lt _ _ (by omega) hy'
  simp only [nbrsN, List.map_cons, List.map_nil]
  rw [hrw _ _ cx.c cy.c hx' hy' hcxc hcyc,
    hrw _ _ cx.m cy.m bxm bym hcxm hcym,
    hrw _ _ cx.c cy.m hx' bym hcxc hcym,
    hrw _ _ cx.p cy.m bxp bym hcxp hcym,
    hrw _ _ cx.m cy.c bxm hy' hcxm hcyc,
    hrw _ _ cx.p cy.c bxp hy' hcxp hcyc,
    hrw _ _ cx.m cy.p bxm byp hcxm hcyp,
    hrw _ _ cx.c cy.p hx' byp hcxc hcyp,
    hrw _ _ cx.p cy.p bxp byp hcxp hcyp]
  rw [memC_label S' hS' x y cx.c cy.c hcxc hcyc]
  exact hloc cx hcxmem cy hcymem

/-- C8: for every freshly constructed World of size at least 5 x 5 (the
default glider seed), four calls to `step()` produce a grid whose live
cells are exactly the initial glider pattern translated by (+1, +1)
modulo the grid dimensions, and nothing else is alive. -/
theorem claim_glider (w h : Nat) (hw : 5 ≤ w) (hh : 5 ≤ h) (wld : World)
    (hinit : World.init w h = some wld) :
    ∀ x y : Nat, x < w → y < h →
      (cellAt (stepN 4 wld).cells x y = Cell.ALIVE ↔
        (x, y) ∈ gliderCells.map (fun p => ((p.1 + 1) % w, (p.2 + 1) % h))) := by
  have hwld : wld = World.mk w h (gliderGrid w h) (fresh_changed w h) := by
    rw [init_eq w h (by omega) (by omega)] at hinit
    exact (Option.some_inj.mp hinit).symm
  subst hwld
  have hrep0 : RepW (World.mk w h (gliderGrid w h) (fresh_changed w h)) gliderCells := by
    intro x y hx hy
    exact cellAt_gliderGrid w h (by omega) (by omega) x y
  have hrep1 := rep_step _ gliderCells gen1 hw hh (by decide) (by decide) (by decide) hrep0
  have hrep2 := rep_step _ gen1 gen2 hw hh (by decide) (by decide) (by decide) hrep1
  have hrep3 := rep_step _ gen2 gen3 hw hh (by decide) (by decide) (by decide) hrep2
  have hrep4 := rep_step _ gen3 gen4 hw hh (by decide) (by decide) (by decide) hrep3
  intro x y hx hy
  have hcell := hrep4 x y hx hy
  have hmap : gliderCells.map (fun p => ((p.1 + 1) % w, (p.2 + 1) % h)) = gen4 := by
    simp only [gliderCells, List.map_cons, List.map_nil]
    rw [Nat.mod_eq_of_lt (show 3 < w by omega), Nat.mod_eq_of_lt (show 1 < h by omega),
      Nat.mod_eq_of_lt (show 2 < h by omega), Nat.mod_eq_of_lt (show 3 < h by omega),
      Nat.mod_eq_of_lt (show 2 < w by omega), Nat.mod_eq_of_lt (show 1 < w by omega)]
    rfl
  have hsn : stepN 4 (World.mk w h (gliderGrid w h) (fresh_changed w h)) =
      ((((World.mk w h (gliderGrid w h) (fresh_changed w h)).step).step).step).step := rfl
  rw [hmap, hsn, hcell]
  unfold memC
  split
  · rename_i hmem
    exact ⟨fun _ => hmem, fun _ => rfl⟩
  · rename_i hmem
    exact ⟨fun hc => absurd hc (by decide), fun hm => absurd hm hmem⟩

theorem claim_glider_witness : cellAt (stepN 4 w55).cells 3 1 = Cell.ALIVE :=
  (claim_glider 5 5 (by decide) (by decide) w55 (by decide) 3 1
    (by decide) (by decide)).mpr (by decide)

end Life
